import Mathlib

/-!
Verification of the `agentic-provision` repository core: a shallow embedding of
`src/lib/state_manager.py` (the Session State Machine over the Durable Store)
and `src/scripts/audit-system.py` (the Detection Probe Runner and Audit
Orchestrator), with theorems settling the specification's claims.

Python dictionaries are embedded as insertion-ordered association lists,
`datetime.now()` calls are threaded as explicit string parameters (one per
call site, in source order), and subprocess execution is abstracted by a
deterministic oracle mapping a command string and timeout to its outcome.
-/

namespace AgenticProvision

/-- Lookup in an insertion-ordered association list (Python `d[k]` / `k in d`). -/
def lookupKey {α : Type} : List (String × α) → String → Option α
  | [], _ => none
  | (k', v) :: t, k => if k' = k then some v else lookupKey t k

/-- Assignment `d[k] = v` on a Python dict: overwrite in place when the key
exists (keeping its position), otherwise append at the end. -/
def upsertKey {α : Type} : List (String × α) → String → α → List (String × α)
  | [], k, v => [(k, v)]
  | (k', v') :: t, k, v =>
      if k' = k then (k, v) :: t else (k', v') :: upsertKey t k v

/-- Entry of `state["phase"]["history"]`. -/
structure PhaseEntry where
  phase : String
  ended : String
  deriving DecidableEq, Repr

/-- The `state["phase"]` object. -/
structure PhaseInfo where
  current : String
  history : List PhaseEntry
  deriving DecidableEq, Repr

/-- The `state["meta"]` object; the optional fields are the keys that
`complete_session`, `fail_session` and `_handle_shutdown` may add. -/
structure MetaInfo where
  id : String
  created : String
  updated : String
  status : String
  version : String
  completed : Option String := none
  failed_at : Option String := none
  failure_reason : Option String := none
  interrupted_at : Option String := none
  deriving DecidableEq, Repr

/-- Value stored in `state["choices"]` by `record_choice`. -/
structure ChoiceRec where
  answer : String
  value : String
  timestamp : String
  deriving DecidableEq, Repr

/-- Value stored in `state["tasks"]`: a task record.  The Python record is a
dict holding only the keys relevant to its status; absent keys are `none`. -/
structure TaskRecord where
  status : String
  started : Option String := none
  completed : Option String := none
  failed_at : Option String := none
  skipped_at : Option String := none
  error : Option String := none
  deriving DecidableEq, Repr

/-- Entry of `state["execution"]["commands"]` as appended by
`log_command_start` and mutated by `log_command_end`. -/
structure CmdEntry where
  command : String
  language : String
  started : String
  status : String
  ended : Option String := none
  output : Option String := none
  error : Option String := none
  deriving DecidableEq, Repr

/-- The `state["resume_point"]` object. -/
structure ResumePoint where
  task_id : String
  action : String
  error : Option String := none
  deriving DecidableEq, Repr

/-- The `state["execution"]` object. -/
structure ExecutionInfo where
  commands : List CmdEntry
  current_task : Option String
  deriving DecidableEq, Repr

/-- The whole session document, mirroring the dict built by
`create_session` (keys in Python insertion order). -/
structure SessionDoc where
  meta : MetaInfo
  phase : PhaseInfo
  profile : Option String
  choices : List (String × ChoiceRec)
  user_data : List (String × String)
  tasks : List (String × TaskRecord)
  plan : List String
  execution : ExecutionInfo
  resume_point : Option ResumePoint
  expansion_history : List String
  deriving DecidableEq, Repr

/-- A `SessionState` object: `session_file` (its path, when set) and the
in-memory document `state`; `stored` models the content of the session file
on disk (what the last `_save` persisted), so persistence is observable. -/
structure SessionState where
  session_file : Option String
  state : SessionDoc
  stored : Option SessionDoc
  deriving DecidableEq, Repr

/-- The document built by `create_session` before the initial save;
`session_id`, `created` and `updated` are the `datetime.now()` results. -/
def initialDoc (session_id created updated : String) (profile : Option String) :
    SessionDoc where
  meta := { id := session_id, created := created, updated := updated,
            status := "active", version := "1.0" }
  phase := { current := "init", history := [] }
  profile := profile
  choices := []
  user_data := []
  tasks := []
  plan := []
  execution := { commands := [], current_task := none }
  resume_point := none
  expansion_history := []

/-- `SessionState._save`: return unchanged if no session file is set;
otherwise refresh `meta.updated` with `now` and persist the document
(temp-file write plus rename, modelled at the filesystem level below). -/
def saveState (now : String) (s : SessionState) : SessionState :=
  match s.session_file with
  | none => s
  | some _ =>
      let doc := { s.state with meta := { s.state.meta with updated := now } }
      { s with state := doc, stored := some doc }

/-- `SessionState.set_phase`: no-op when the phase is unchanged; otherwise
append a history entry for the outgoing phase (ended at `now`), set the new
phase and save (`saveNow` is the timestamp `_save` draws). -/
def set_phase (phase now saveNow : String) (s : SessionState) : SessionState :=
  let current := s.state.phase.current
  if current = phase then s
  else
    let ph : PhaseInfo :=
      { current := phase, history := s.state.phase.history ++ [⟨current, now⟩] }
    saveState saveNow { s with state := { s.state with phase := ph } }

/-- `SessionState.record_choice`. -/
def record_choice (question_id answer value now saveNow : String)
    (s : SessionState) : SessionState :=
  let cs := upsertKey s.state.choices question_id ⟨answer, value, now⟩
  saveState saveNow { s with state := { s.state with choices := cs } }

/-- `SessionState.record_user_data`. -/
def record_user_data (key value saveNow : String) (s : SessionState) :
    SessionState :=
  let ud := upsertKey s.state.user_data key value
  saveState saveNow { s with state := { s.state with user_data := ud } }

/-- The `{"status": "pending"}` record seeded by `set_plan`. -/
def pendingRecord : TaskRecord := { status := "pending" }

/-- The loop body of `set_plan`: for each id not yet in `tasks`, insert a
pending record (appended at the end, as Python dict assignment does). -/
def seedPending (ts : List (String × TaskRecord)) (ids : List String) :
    List (String × TaskRecord) :=
  ids.foldl
    (fun acc tid =>
      if (lookupKey acc tid).isSome then acc else acc ++ [(tid, pendingRecord)])
    ts

/-- `SessionState.set_plan`: replace `plan`, seed pending records, save. -/
def set_plan (tasks : List String) (saveNow : String) (s : SessionState) :
    SessionState :=
  let ts := seedPending s.state.tasks tasks
  saveState saveNow { s with state := { s.state with plan := tasks, tasks := ts } }

/-- `SessionState.start_task`: set `execution.current_task`, overwrite the
task record wholesale with `{status: in_progress, started: now}`, set
`resume_point = {task_id, retry}`, save. -/
def start_task (task_id now saveNow : String) (s : SessionState) :
    SessionState :=
  let ex := { s.state.execution with current_task := some task_id }
  let ts := upsertKey s.state.tasks task_id
              { status := "in_progress", started := some now }
  let rp : ResumePoint := { task_id := task_id, action := "retry" }
  saveState saveNow
    { s with state :=
        { s.state with execution := ex, tasks := ts, resume_point := some rp } }

/-- Error kinds raised by Session State Machine operations; `UnknownTask` is
the `KeyError` Python raises when `state["tasks"][task_id]` is absent. -/
inductive StateError where
  | UnknownTask
  deriving DecidableEq, Repr

/-- `SessionState.complete_task`: the first statement reads
`state["tasks"][task_id]`, so when the id has no record the `KeyError`
(`UnknownTask`) fires before any mutation or save; otherwise set status
`completed`, stamp `completed`, clear `current_task`, save. -/
def complete_task (task_id now saveNow : String) (s : SessionState) :
    Except StateError SessionState :=
  match lookupKey s.state.tasks task_id with
  | none => .error .UnknownTask
  | some r =>
      let ts := upsertKey s.state.tasks task_id
                  { r with status := "completed", completed := some now }
      let ex := { s.state.execution with current_task := none }
      .ok <| saveState saveNow
        { s with state := { s.state with tasks := ts, execution := ex } }

/-- `SessionState.fail_task`: as with `complete_task`, an absent record
raises before any mutation; otherwise set status `failed`, store the error
truncated to 500 characters, stamp `failed_at`, set
`resume_point = {task_id, retry_or_skip, error[:200]}`, save. -/
def fail_task (task_id error now saveNow : String) (s : SessionState) :
    Except StateError SessionState :=
  match lookupKey s.state.tasks task_id with
  | none => .error .UnknownTask
  | some r =>
      let ts := upsertKey s.state.tasks task_id
                  { r with status := "failed", error := some (error.take 500),
                           failed_at := some now }
      let rp : ResumePoint :=
        { task_id := task_id, action := "retry_or_skip",
          error := some (error.take 200) }
      .ok <| saveState saveNow
        { s with state :=
            { s.state with tasks := ts, resume_point := some rp } }

/-- `SessionState.skip_task`: overwrite the record wholesale. -/
def skip_task (task_id now saveNow : String) (s : SessionState) : SessionState :=
  let ts := upsertKey s.state.tasks task_id
              { status := "skipped", skipped_at := some now }
  saveState saveNow { s with state := { s.state with tasks := ts } }

/-- `SessionState.log_command_start`: append a `running` entry (command
truncated to 1000 characters), save, and return the entry's index. -/
def log_command_start (command language now saveNow : String)
    (s : SessionState) : SessionState × Nat :=
  let entry : CmdEntry :=
    { command := command.take 1000, language := language,
      started := now, status := "running" }
  let ex := { s.state.execution with
                commands := s.state.execution.commands ++ [entry] }
  let s' := saveState saveNow { s with state := { s.state with execution := ex } }
  (s', s'.state.execution.commands.length - 1)

/-- `SessionState.log_command_end`: when `index` is in range, mutate that
entry in place (`ended`, `status`, and `output`/`error` only when the
argument is non-empty — Python truthiness) and save; otherwise do nothing. -/
def log_command_end (index : Nat) (success : Bool) (output error now saveNow : String)
    (s : SessionState) : SessionState :=
  if index < s.state.execution.commands.length then
    let upd : CmdEntry → CmdEntry := fun cmd =>
      { cmd with
          ended := some now,
          status := if success then "success" else "failed",
          output := if output = "" then cmd.output else some (output.take 500),
          error := if error = "" then cmd.error else some (error.take 500) }
    let ex := { s.state.execution with
                  commands := s.state.execution.commands.modify upd index }
    saveState saveNow { s with state := { s.state with execution := ex } }
  else s

/-- `SessionState.complete_session` up to its save: set terminal status and
timestamp, save.  The subsequent relocation of the file from the active to
the completed directory happens after the save and is not modelled (no
claim concerns it). -/
def complete_session (now saveNow : String) (s : SessionState) : SessionState :=
  let m := { s.state.meta with status := "completed", completed := some now }
  saveState saveNow { s with state := { s.state with meta := m } }

/-- `SessionState.fail_session` up to its save: set terminal status and
timestamp, store the truncated reason when non-empty (Python truthiness),
save.  File relocation is not modelled, as for `complete_session`. -/
def fail_session (reason now saveNow : String) (s : SessionState) : SessionState :=
  let m := { s.state.meta with
               status := "failed", failed_at := some now,
               failure_reason := if reason = "" then s.state.meta.failure_reason
                                 else some (reason.take 500) }
  saveState saveNow { s with state := { s.state with meta := m } }

/-- `SessionState.get_completed_tasks`: ids of tasks whose status is
`completed`, in dict insertion order. -/
def get_completed_tasks (d : SessionDoc) : List String :=
  (d.tasks.filter (fun p => p.2.status = "completed")).map (·.1)

/-! Filesystem-level model of `_save`'s crash safety.  A filesystem maps a
path to the content of the file there (or `none`).  `_save` performs two
filesystem steps: `json.dump` into the sibling temporary path
(`session_file.with_suffix('.tmp')`), then `tmp_file.rename(session_file)`.
A crash can land before the dump, in the middle of the dump (leaving an
arbitrary truncated byte string at the temporary path), between dump and
rename, or after the rename. -/

/-- A filesystem: path to file content. -/
def FS : Type := String → Option String

/-- Write `content` at `path` (the `json.dump` step of `_save`). -/
def fsWrite (fs : FS) (path content : String) : FS :=
  fun p => if p = path then some content else fs p

/-- Atomic `rename(src, dst)`: `dst` now holds what `src` held, `src` is
gone (the `tmp_file.rename(self.session_file)` step of `_save`). -/
def fsRename (fs : FS) (src dst : String) : FS :=
  fun p => if p = dst then fs src else if p = src then none else fs p

/-- Canonical session path for a session file stem (e.g. `active/prov-x`):
`<stem>.json`. -/
def canonicalPath (stem : String) : String := stem ++ ".json"

/-- Temporary path produced by `with_suffix('.tmp')` on the canonical
path: `<stem>.tmp`. -/
def tmpPath (stem : String) : String := stem ++ ".tmp"

/-- The points at which the process can be killed during `_save`, including
mid-`json.dump` with `trunc` of the serialized document written so far. -/
inductive CrashPoint where
  | beforeWrite
  | duringWrite (trunc : String)
  | afterWrite
  | afterRename
  deriving DecidableEq, Repr

/-- The filesystem observed when the process dies at `cp` while `_save` was
writing `content` (the serialized document) for the session at `stem`. -/
def saveCrashFS (fs : FS) (stem content : String) : CrashPoint → FS
  | .beforeWrite => fs
  | .duringWrite trunc => fsWrite fs (tmpPath stem) trunc
  | .afterWrite => fsWrite fs (tmpPath stem) content
  | .afterRename =>
      fsRename (fsWrite fs (tmpPath stem) content) (tmpPath stem)
        (canonicalPath stem)

/-! Embedding of `src/scripts/audit-system.py`.  Subprocess execution is a
deterministic oracle `Env` from a command string and timeout to the outcome
of `subprocess.run`; `os.path.exists` is a boolean oracle on paths. -/

/-- Outcome of `subprocess.run(cmd, shell=True, ..., timeout=t)`: normal
completion with an exit code and stdout, `TimeoutExpired`, or any other
exception (carrying `str(e)`). -/
inductive CmdOutcome where
  | completed (returncode : Int) (stdout : String)
  | timedOut
  | raised (msg : String)
  deriving DecidableEq, Repr

/-- Deterministic oracle for subprocess execution. -/
def Env : Type := String → Nat → CmdOutcome

/-- Python `str.strip()`: drop whitespace from both ends. -/
def pyStrip (s : String) : String :=
  String.mk
    (((s.data.dropWhile Char.isWhitespace).reverse.dropWhile
        Char.isWhitespace).reverse)

/-- Python `str.lower()` (the probed strings are ASCII). -/
def pyLower (s : String) : String := String.mk (s.data.map Char.toLower)

/-- Python `str.startswith(p)`. -/
def pyStartsWith (s p : String) : Bool := p.data.isPrefixOf s.data

/-- Left-to-right non-overlapping split on a non-empty separator; `fuel`
bounds the recursion and never runs out when it starts at the input length
plus one. -/
def pySplitOnGo (sep : List Char) : Nat → List Char → List Char →
    List (List Char)
  | 0, cs, acc => [acc.reverse ++ cs]
  | fuel + 1, cs, acc =>
      match cs with
      | [] => [acc.reverse]
      | c :: rest =>
          if sep.isPrefixOf cs then
            acc.reverse :: pySplitOnGo sep fuel (cs.drop sep.length) []
          else pySplitOnGo sep fuel rest (c :: acc)

/-- Python `s.split(sep)` for a non-empty separator (Python raises
`ValueError` on an empty one; the embedding never passes one). -/
def pySplitOn (s sep : String) : List String :=
  if sep = "" then [s]
  else (pySplitOnGo sep.data (s.data.length + 1) s.data []).map String.mk

/-- `run_command(cmd, timeout)`: `(returncode, stdout.strip())` on normal
completion, `(-1, "timeout")` on `TimeoutExpired`, `(-1, str(e))` on any
other exception. -/
def run_command (env : Env) (cmd : String) (timeout : Nat := 10) :
    Int × String :=
  match env cmd timeout with
  | .completed rc out => (rc, pyStrip out)
  | .timedOut => (-1, "timeout")
  | .raised msg => (-1, msg)

/-- The `detection` block of a task manifest entry. -/
structure Detection where
  check_command : Option String := none
  version_command : Option String := none
  installed_indicator : Option String := none
  deriving DecidableEq, Repr

/-- A task descriptor as loaded from a manifest (`task.get` defaults are
applied at the use sites, as in the Python). -/
structure TaskDesc where
  name : Option String := none
  category : Option String := none
  detection : Detection := {}
  deriving DecidableEq, Repr

/-- The `ToolStatus` dataclass. -/
structure ToolStatus where
  task_id : String
  name : String
  category : String
  installed : Bool
  version : Option String := none
  install_path : Option String := none
  detection_method : String := ""
  error : Option String := none
  deriving DecidableEq, Repr

/-- Python truthiness of an optional string: `None` and `""` are falsy. -/
def strTruthy : Option String → Bool
  | none => false
  | some s => s ≠ ""

/-- `get_version(task)`: run the version command with a 5s timeout; on exit
code 0 with non-empty output take the first line, strip the prefixes `v`,
`version ` and `Version ` in turn (case-insensitively), and cap at 50
characters. -/
def get_version (env : Env) (task : TaskDesc) : Option String :=
  match task.detection.version_command with
  | none => none
  | some vc =>
      if vc = "" then none
      else
        let (code, out) := run_command env vc 5
        if code = 0 ∧ out ≠ "" then
          let v0 := (pySplitOn out "\n").headD ""
          let v1 := ["v", "version ", "Version "].foldl
            (fun v p =>
              if pyStartsWith (pyLower v) (pyLower p) then v.drop p.length else v)
            v0
          some (v1.take 50)
        else none

/-- First whitespace-separated token of a string, Python `s.split()[0]`
(`none` when the string is blank, where Python raises `IndexError`). -/
def firstToken (s : String) : Option String :=
  (((pyStrip s).split Char.isWhitespace).filter (· ≠ "")).head?

/-- `get_install_path(task)`: prefer an existing `/Applications` bundle
indicator; otherwise, when the check command contains `command -v`, resolve
the named command's location via `command -v <name>`.  In the corner case
where nothing follows `command -v`, the Python raises `IndexError`
(`parts[1].strip().split()[0]` on a blank string); that dead branch, which
no claim reaches, is modelled as `none`. -/
def get_install_path (env : Env) (pathExists : String → Bool)
    (task : TaskDesc) : Option String :=
  let detection := task.detection
  let fromBundle : Option String :=
    match detection.installed_indicator with
    | none => none
    | some ind =>
        if ind ≠ "" ∧ pyStartsWith ind "/Applications" ∧ pathExists ind then
          some ind
        else none
  match fromBundle with
  | some p => some p
  | none =>
      let check_cmd := detection.check_command.getD ""
      let parts := pySplitOn check_cmd "command -v"
      if parts.length > 1 then
        match firstToken ((parts.get? 1).getD "") with
        | none => none
        | some cmd_name =>
            let (code, out) := run_command env ("command -v " ++ cmd_name) 10
            if code = 0 then some out else none
      else none

/-- `check_tool(task_id, task, quick)`: report `installed = (exit code 0)`
of the check command; a missing (or empty, Python-falsy) check command
yields `installed=false` with error `"No detection command"`; when
installed and not quick, additionally fill version and install path. -/
def check_tool (env : Env) (pathExists : String → Bool) (task_id : String)
    (task : TaskDesc) (quick : Bool := false) : ToolStatus :=
  let check_cmd := task.detection.check_command
  let status : ToolStatus :=
    { task_id := task_id,
      name := task.name.getD task_id,
      category := task.category.getD "unknown",
      installed := false,
      detection_method :=
        if strTruthy check_cmd then (check_cmd.getD "").take 60 else "(none)" }
  if ¬ strTruthy check_cmd then
    { status with error := some "No detection command" }
  else
    let (code, _) := run_command env (check_cmd.getD "") 10
    let installed := code = 0
    if installed ∧ ¬ quick then
      { status with installed := installed,
                    version := get_version env task,
                    install_path := get_install_path env pathExists task }
    else
      { status with installed := installed }

/-- The `SystemInfo` dataclass. -/
structure SystemInfo where
  hostname : String := ""
  macos_version : String := ""
  architecture : String := ""
  shell : String := ""
  homebrew_installed : Bool := false
  homebrew_prefix : String := ""
  xcode_cli_installed : Bool := false
  deriving DecidableEq, Repr

/-- `get_system_info()`; `shellEnv` is `os.environ.get("SHELL")`. -/
def get_system_info (env : Env) (shellEnv : Option String) : SystemInfo :=
  let (hcode, hout) := run_command env "hostname -s" 10
  let (vcode, vout) := run_command env "sw_vers -productVersion" 10
  let (acode, aout) := run_command env "uname -m" 10
  let (bcode, _) := run_command env "command -v brew" 10
  let brewInstalled := bcode = 0
  let brewPrefix :=
    if brewInstalled then
      let (pcode, pout) := run_command env "brew --prefix" 10
      if pcode = 0 then pout else ""
    else ""
  let (xcode, _) := run_command env "xcode-select -p" 10
  { hostname := if hcode = 0 then hout else "unknown",
    macos_version := if vcode = 0 then vout else "unknown",
    architecture := if acode = 0 then aout else "unknown",
    shell := shellEnv.getD "/bin/zsh",
    homebrew_installed := brewInstalled,
    homebrew_prefix := brewPrefix,
    xcode_cli_installed := xcode = 0 }

/-- Sort key of `report.tools.sort(key=lambda t: (t.category, t.name))`. -/
def toolKey (t : ToolStatus) : String × String := (t.category, t.name)

/-- Python string `<`: lexicographic comparison by code point. -/
def strLtb : List Char → List Char → Bool
  | [], [] => false
  | [], _ :: _ => true
  | _ :: _, [] => false
  | a :: as, b :: bs => if a = b then strLtb as bs else decide (a < b)

/-- Python tuple `<` on the sort key `(category, name)`. -/
def keyLtb (x y : String × String) : Bool :=
  strLtb x.1.data y.1.data || (x.1 == y.1 && strLtb x.2.data y.2.data)

/-- Python tuple `<=` on the sort key, the order `list.sort` uses. -/
def keyLe (x y : String × String) : Prop := keyLtb x y = true ∨ x = y

/-- The comparison `list.sort(key=...)` applies between two tools. -/
def toolLe (a b : ToolStatus) : Prop := keyLe (toolKey a) (toolKey b)

instance : DecidableRel toolLe := fun _ _ =>
  inferInstanceAs (Decidable (_ ∨ _))

/-- The in-place stable ascending sort `report.tools.sort(...)`. -/
def sortTools (l : List ToolStatus) : List ToolStatus :=
  List.insertionSort toolLe l

/-- Per-category tally of the summary's `by_category` dict. -/
structure CategoryTally where
  installed : Nat
  total : Nat
  deriving DecidableEq, Repr

/-- The `report.summary` dict. -/
structure Summary where
  total_tools : Nat
  installed : Nat
  not_installed : Nat
  errors : Nat
  by_category : List (String × CategoryTally)
  deriving DecidableEq, Repr

/-- The `by_category` loop of `run_audit`: first-seen category order, one
tally per category. -/
def tallyByCategory (tools : List ToolStatus) : List (String × CategoryTally) :=
  tools.foldl
    (fun acc t =>
      let cur := (lookupKey acc t.category).getD { installed := 0, total := 0 }
      upsertKey acc t.category
        { installed := if t.installed then cur.installed + 1 else cur.installed,
          total := cur.total + 1 })
    []

/-- The summary block computed at the end of `run_audit`; a tool counts as
`not_installed` only when its `error` is Python-falsy, and as an error when
`error` is truthy. -/
def computeSummary (tools : List ToolStatus) : Summary :=
  { total_tools := tools.length,
    installed := (tools.filter (fun t => t.installed)).length,
    not_installed :=
      (tools.filter (fun t => ¬ t.installed ∧ ¬ strTruthy t.error)).length,
    errors := (tools.filter (fun t => strTruthy t.error)).length,
    by_category := tallyByCategory tools }

/-- The `AuditReport` dataclass (`drift` is attached separately by `main`,
so it is not part of `run_audit`'s result here). -/
structure AuditReport where
  timestamp : String
  system : SystemInfo
  tools : List ToolStatus
  summary : Summary
  deriving DecidableEq, Repr

/-- `run_audit(category, quick, parallel)` after `load_tasks` produced the
ordered task dict `tasks`.  In parallel mode (a thread pool, taken only
when `parallel and not quick`) results are appended in completion order:
`arrival`, an arbitrary permutation of `tasks`, makes that scheduling
nondeterminism explicit; sequential mode appends in dict order.  Both modes
then sort by `(category, name)` and compute the summary. -/
def run_audit (env : Env) (pathExists : String → Bool)
    (shellEnv : Option String) (timestamp : String)
    (tasks : List (String × TaskDesc)) (quick parallel : Bool)
    (arrival : List (String × TaskDesc)) : AuditReport :=
  let probe := fun (p : String × TaskDesc) => check_tool env pathExists p.1 p.2 quick
  let raw :=
    if parallel ∧ ¬ quick then arrival.map probe else tasks.map probe
  let tools := sortTools raw
  { timestamp := timestamp,
    system := get_system_info env shellEnv,
    tools := tools,
    summary := computeSummary tools }

/-! `compare_with_session` receives the raw JSON loaded from the session
file, so the loaded document is modelled as a JSON value and the session
documents written by the Session State Machine are encoded into it exactly
as `json.dump(self.state, ...)` lays them out. -/

/-- A JSON value (numbers do not occur in the session documents). -/
inductive Json where
  | null
  | str (s : String)
  | arr (elems : List Json)
  | obj (fields : List (String × Json))

/-- Python `d.get(key)` on a JSON object (`none` on non-objects). -/
def jsonGet (j : Json) (key : String) : Option Json :=
  match j with
  | .obj fields => lookupKey fields key
  | _ => none

/-- Python `d.get(key, default)` for string values, as used on the entries
of `completed_tasks` in `compare_with_session`. -/
def jsonGetStr (j : Json) (key : String) (dflt : String) : String :=
  match jsonGet j key with
  | some (.str s) => s
  | _ => dflt

/-- Encode an optional string the way `json.dump` encodes `None`/`str`. -/
def optJson : Option String → Json
  | none => .null
  | some s => .str s

/-- Optional key of a JSON object: present only when the value is set
(mirrors Python keys that are only conditionally assigned). -/
def optField (key : String) : Option String → List (String × Json)
  | none => []
  | some s => [(key, .str s)]

/-- JSON encoding of a task record (keys in the order the operations
assign them; only present keys are emitted). -/
def taskRecordToJson (r : TaskRecord) : Json :=
  .obj ([("status", .str r.status)]
    ++ optField "started" r.started
    ++ optField "completed" r.completed
    ++ optField "error" r.error
    ++ optField "failed_at" r.failed_at
    ++ optField "skipped_at" r.skipped_at)

/-- JSON encoding of a command log entry. -/
def cmdEntryToJson (c : CmdEntry) : Json :=
  .obj ([("command", .str c.command), ("language", .str c.language),
         ("started", .str c.started), ("status", .str c.status)]
    ++ optField "ended" c.ended
    ++ optField "output" c.output
    ++ optField "error" c.error)

/-- JSON encoding of a resume point. -/
def resumePointToJson (r : ResumePoint) : Json :=
  .obj ([("task_id", .str r.task_id), ("action", .str r.action)]
    ++ optField "error" r.error)

/-- JSON encoding of a whole session document, with exactly the top-level
keys `create_session` initializes: `meta`, `phase`, `profile`, `choices`,
`user_data`, `tasks`, `plan`, `execution`, `resume_point`,
`expansion_history` (no operation ever adds a top-level key). -/
def sessionToJson (d : SessionDoc) : Json :=
  .obj
    [("meta", .obj ([("id", .str d.meta.id), ("created", .str d.meta.created),
        ("updated", .str d.meta.updated), ("status", .str d.meta.status),
        ("version", .str d.meta.version)]
      ++ optField "completed" d.meta.completed
      ++ optField "failed_at" d.meta.failed_at
      ++ optField "failure_reason" d.meta.failure_reason
      ++ optField "interrupted_at" d.meta.interrupted_at)),
     ("phase", .obj [("current", .str d.phase.current),
        ("history", .arr (d.phase.history.map (fun h =>
          .obj [("phase", .str h.phase), ("ended", .str h.ended)])))]),
     ("profile", optJson d.profile),
     ("choices", .obj (d.choices.map (fun p =>
        (p.1, Json.obj [("answer", .str p.2.answer), ("value", .str p.2.value),
                        ("timestamp", .str p.2.timestamp)])))),
     ("user_data", .obj (d.user_data.map (fun p => (p.1, Json.str p.2)))),
     ("tasks", .obj (d.tasks.map (fun p => (p.1, taskRecordToJson p.2)))),
     ("plan", .arr (d.plan.map .str)),
     ("execution", .obj [("commands", .arr (d.execution.commands.map cmdEntryToJson)),
        ("current_task", optJson d.execution.current_task)]),
     ("resume_point", match d.resume_point with
        | none => .null
        | some r => resumePointToJson r),
     ("expansion_history", .arr (d.expansion_history.map .str))]

/-- The drift dict; the Python builds `set`s and converts them to lists
whose order is unspecified (set iteration order), so the fields are
modelled as finite sets. -/
structure Drift where
  added_outside_session : Finset String
  removed_since_session : Finset String
  still_installed : Finset String
  deriving DecidableEq

/-- `compare_with_session(report, session_path)` after the session file has
been loaded as JSON: collect `session_tools` from the top-level
`completed_tasks` list (taking each entry's `task_id`, else `id`, else
`""`), intersect/diff against the report's installed task ids.  A present
but non-list `completed_tasks` would make Python raise; that is modelled
as the empty list and never arises from a session document. -/
def compare_with_session (reportTools : List ToolStatus) (session : Json) :
    Drift :=
  let entries :=
    match jsonGet session "completed_tasks" with
    | some (.arr xs) => xs
    | _ => []
  let session_tools : Finset String :=
    entries.foldl
      (fun acc task => insert (jsonGetStr task "task_id" (jsonGetStr task "id" "")) acc)
      ∅
  let current_installed : Finset String :=
    ((reportTools.filter (fun t => t.installed)).map (fun t => t.task_id)).toFinset
  { added_outside_session := current_installed \ session_tools,
    removed_since_session := session_tools \ current_installed,
    still_installed := current_installed ∩ session_tools }

/-- Strict tool ordering: strictly smaller `(category, name)` sort key. -/
def toolLt (a b : ToolStatus) : Prop :=
  keyLtb (toolKey a) (toolKey b) = true

/-- The document has just been persisted through the Durable Store: the
stored copy equals the in-memory document and `meta.updated` carries the
save timestamp. -/
def persisted (s : SessionState) (n : String) : Prop :=
  s.stored = some s.state ∧ s.state.meta.updated = n

/-! Concrete sample data used by the witnesses and counterexamples. -/

/-- A freshly created session document. -/
def sampleDoc : SessionDoc :=
  initialDoc "prov-20251012-120000-ab12" "T0" "T0" (some "fullstack-web")

/-- A session state with its file set, as `create_session` leaves it. -/
def sampleState : SessionState :=
  { session_file := some "active/prov-20251012-120000-ab12.json",
    state := sampleDoc, stored := some sampleDoc }

/-- `sampleState` after a plan seeded a pending record for `homebrew`. -/
def sampleWithTask : SessionState :=
  { sampleState with
      state := { sampleDoc with tasks := [("homebrew", pendingRecord)] } }

/-- A 1000-character error message. -/
def longError : String := String.mk (List.replicate 1000 'x')

/-- A filesystem whose canonical session path holds a prior document. -/
def crashDemoFS : FS :=
  fun p => if p = canonicalPath "active/prov-1" then some "old-document" else none

/-- An execution oracle under which every command times out. -/
def timeoutEnv : Env := fun _ _ => .timedOut

/-- An execution oracle under which every command raises. -/
def raisedEnv : Env := fun _ _ => .raised "boom"

/-- No path exists on the probed host. -/
def noPath : String → Bool := fun _ => false

/-- A task descriptor with a `command -v` detection probe. -/
def brewTask : TaskDesc :=
  { name := some "Homebrew", category := some "package-managers",
    detection := { check_command := some "command -v brew" } }

/-- A task descriptor with no detection block contents. -/
def noCmdTask : TaskDesc := { name := some "Thing", category := some "cat" }

/-- A session whose recorded tasks `b`, `c`, `d` are all completed. -/
def sessionBCD : SessionDoc :=
  { sampleDoc with tasks :=
      [("b", { status := "completed", completed := some "T1" }),
       ("c", { status := "completed", completed := some "T1" }),
       ("d", { status := "completed", completed := some "T1" })] }

/-- An installed tool as the audit reports it. -/
def installedTool (id : String) : ToolStatus :=
  { task_id := id, name := id, category := "cat", installed := true }

/-- An audit report whose installed tools are `a`, `b`, `c`. -/
def reportABC : List ToolStatus :=
  [installedTool "a", installedTool "b", installedTool "c"]

/-- All commands succeed immediately with empty output. -/
def dupEnv : Env := fun _ _ => .completed 0 ""

/-- A task named `dup` in category `cat` whose probe always succeeds. -/
def dupTask : TaskDesc :=
  { name := some "dup", category := some "cat",
    detection := { check_command := some "true" } }

/-- Two tasks sharing the `(category, name)` pair with different ids. -/
def dupTasks : List (String × TaskDesc) := [("a", dupTask), ("b", dupTask)]

/-- The same two tasks, completing in the opposite order. -/
def dupArrival : List (String × TaskDesc) := [("b", dupTask), ("a", dupTask)]

/-- A task with the same category as `dupTask` but a distinct name. -/
def otherTask : TaskDesc :=
  { name := some "other", category := some "cat",
    detection := { check_command := some "true" } }

/-- Two tasks with distinct `(category, name)` keys. -/
def distinctTasks : List (String × TaskDesc) := [("a", dupTask), ("b", otherTask)]

/-- The same two tasks completing in the opposite order. -/
def distinctArrival : List (String × TaskDesc) :=
  [("b", otherTask), ("a", dupTask)]

/-! Helper lemmas about the association-list dictionary operations and the
save primitive, shared by the claim theorems. -/

theorem lookupKey_upsertKey_self {α : Type} (l : List (String × α)) (k : String)
    (v : α) : lookupKey (upsertKey l k v) k = some v := by
  induction l with
  | nil => simp [upsertKey, lookupKey]
  | cons hd t ih =>
      obtain ⟨k', v'⟩ := hd
      by_cases hk : k' = k
      · simp [upsertKey, hk, lookupKey]
      · simp [upsertKey, hk, lookupKey, ih]

theorem lookupKey_upsertKey_ne {α : Type} (l : List (String × α)) (k k' : String)
    (v : α) (h : k ≠ k') : lookupKey (upsertKey l k v) k' = lookupKey l k' := by
  induction l with
  | nil => simp [upsertKey, lookupKey, h]
  | cons hd t ih =>
      obtain ⟨k0, v0⟩ := hd
      by_cases hk : k0 = k
      · subst hk; simp [upsertKey, lookupKey, h]
      · simp only [upsertKey, if_neg hk, lookupKey]
        by_cases hk' : k0 = k'
        · simp [hk']
        · simp [hk', ih]

theorem lookupKey_append {α : Type} (l1 l2 : List (String × α)) (k : String) :
    lookupKey (l1 ++ l2) k =
      match lookupKey l1 k with
      | some v => some v
      | none => lookupKey l2 k := by
  induction l1 with
  | nil => simp [lookupKey]
  | cons hd t ih =>
      obtain ⟨k0, v0⟩ := hd
      by_cases hk : k0 = k
      · simp [lookupKey, hk]
      · simp [lookupKey, hk, ih]

theorem seedPending_cons (ts : List (String × TaskRecord)) (i : String)
    (ids : List String) :
    seedPending ts (i :: ids) =
      seedPending
        (if (lookupKey ts i).isSome then ts else ts ++ [(i, pendingRecord)])
        ids := by
  simp [seedPending, List.foldl]

theorem seedPending_lookup_some (ids : List String)
    (ts : List (String × TaskRecord)) (id : String) (r : TaskRecord)
    (h : lookupKey ts id = some r) :
    lookupKey (seedPending ts ids) id = some r := by
  induction ids generalizing ts with
  | nil => simpa [seedPending] using h
  | cons i ids ih =>
      rw [seedPending_cons]
      apply ih
      by_cases hi : (lookupKey ts i).isSome
      · simpa [hi] using h
      · rw [if_neg hi, lookupKey_append, h]

theorem seedPending_lookup_none (ids : List String)
    (ts : List (String × TaskRecord)) (id : String)
    (h : lookupKey ts id = none) :
    lookupKey (seedPending ts ids) id =
      if id ∈ ids then some pendingRecord else none := by
  induction ids generalizing ts with
  | nil => simpa [seedPending] using h
  | cons i ids ih =>
      rw [seedPending_cons]
      by_cases hid : i = id
      · subst hid
        have hts : lookupKey ts i = none := h
        have : lookupKey (ts ++ [(i, pendingRecord)]) i = some pendingRecord := by
          rw [lookupKey_append, hts]; simp [lookupKey]
        rw [if_neg (by simp [hts])]
        rw [seedPending_lookup_some ids _ i pendingRecord this]
        simp
      · have hstep :
            lookupKey
              (if (lookupKey ts i).isSome then ts else ts ++ [(i, pendingRecord)])
              id = none := by
          by_cases hi : (lookupKey ts i).isSome
          · simpa [hi] using h
          · rw [if_neg hi, lookupKey_append, h]
            simp [lookupKey, hid]
        rw [ih _ hstep]
        simp [List.mem_cons, Ne.symm hid]

theorem saveState_session_file (n : String) (s : SessionState) :
    (saveState n s).session_file = s.session_file := by
  cases h : s.session_file <;> simp [saveState, h]

theorem saveState_tasks (n : String) (s : SessionState) :
    (saveState n s).state.tasks = s.state.tasks := by
  cases h : s.session_file <;> simp [saveState, h]

theorem saveState_phase (n : String) (s : SessionState) :
    (saveState n s).state.phase = s.state.phase := by
  cases h : s.session_file <;> simp [saveState, h]

theorem saveState_plan (n : String) (s : SessionState) :
    (saveState n s).state.plan = s.state.plan := by
  cases h : s.session_file <;> simp [saveState, h]

theorem saveState_execution (n : String) (s : SessionState) :
    (saveState n s).state.execution = s.state.execution := by
  cases h : s.session_file <;> simp [saveState, h]

theorem saveState_resume_point (n : String) (s : SessionState) :
    (saveState n s).state.resume_point = s.state.resume_point := by
  cases h : s.session_file <;> simp [saveState, h]

theorem saveState_persists (n : String) (s : SessionState) (f : String)
    (h : s.session_file = some f) :
    (saveState n s).stored = some (saveState n s).state
      ∧ (saveState n s).state.meta.updated = n := by
  simp [saveState, h]

/-- C4: `start_task(id)` replaces the task's record entirely with
`{status: in_progress, started: now}` (all other fields, in particular
`error`, absent), sets `execution.current_task = id` and
`resume_point = {task_id: id, action: retry}`; hence after `fail_task(id, e)`
a subsequent `start_task(id)` yields a record with status `in_progress` and
no `error` field. -/
theorem claim_C4 (s : SessionState) (id e now sn now2 sn2 : String)
    (h : lookupKey s.state.tasks id ≠ none) :
    lookupKey (start_task id now sn s).state.tasks id =
        some { status := "in_progress", started := some now }
      ∧ (start_task id now sn s).state.execution.current_task = some id
      ∧ (start_task id now sn s).state.resume_point =
          some { task_id := id, action := "retry" }
      ∧ ∃ s', fail_task id e now sn s = .ok s'
          ∧ lookupKey (start_task id now2 sn2 s').state.tasks id =
              some { status := "in_progress", started := some now2 }
          ∧ (start_task id now2 sn2 s').state.execution.current_task = some id
          ∧ (start_task id now2 sn2 s').state.resume_point =
              some { task_id := id, action := "retry" } := by
  refine ⟨?_, ?_, ?_, ?_⟩
  · rw [show (start_task id now sn s).state.tasks =
        upsertKey s.state.tasks id { status := "in_progress", started := some now }
      from by simp [start_task, saveState_tasks]]
    exact lookupKey_upsertKey_self ..
  · simp [start_task, saveState_execution]
  · simp [start_task, saveState_resume_point]
  · cases hr : lookupKey s.state.tasks id with
    | none => exact absurd hr h
    | some r =>
        have hfail : fail_task id e now sn s =
            .ok (saveState sn
              { s with state :=
                  { s.state with
                      tasks := upsertKey s.state.tasks id
                        { r with status := "failed",
                                 error := some (e.take 500),
                                 failed_at := some now },
                      resume_point := some { task_id := id,
                                             action := "retry_or_skip",
                                             error := some (e.take 200) } } }) := by
          simp [fail_task, hr]
        refine ⟨_, hfail, ?_, ?_, ?_⟩
        · rw [show ∀ t : SessionState, (start_task id now2 sn2 t).state.tasks =
              upsertKey t.state.tasks id
                { status := "in_progress", started := some now2 }
            from fun t => by simp [start_task, saveState_tasks]]
          exact lookupKey_upsertKey_self ..
        · simp [start_task, saveState_execution]
        · simp [start_task, saveState_resume_point]

/-- Witness for C4 at a session holding a pending `homebrew` record. -/
theorem claim_C4_witness :
    lookupKey (start_task "homebrew" "T2" "T3" sampleWithTask).state.tasks
        "homebrew" = some { status := "in_progress", started := some "T2" }
      ∧ ∃ s', fail_task "homebrew" "boom" "T2" "T3" sampleWithTask = .ok s'
          ∧ lookupKey (start_task "homebrew" "T4" "T5" s').state.tasks
              "homebrew" =
                some { status := "in_progress", started := some "T4" }
          ∧ (start_task "homebrew" "T4" "T5" s').state.execution.current_task =
              some "homebrew"
          ∧ (start_task "homebrew" "T4" "T5" s').state.resume_point =
              some { task_id := "homebrew", action := "retry" } := by
  obtain ⟨h1, _, _, h4⟩ :=
    claim_C4 sampleWithTask "homebrew" "boom" "T2" "T3" "T4" "T5" (by decide)
  exact ⟨h1, h4⟩

/-- C5: `set_plan` replaces `plan`, seeds a `{status: pending}` record only
for ids with no existing record, and leaves every existing task record
unchanged; hence two overlapping `set_plan` calls never reset a started or
completed task back to `pending`. -/
theorem claim_C5 (s : SessionState) (ids ids2 : List String)
    (sn sn2 id : String) :
    (set_plan ids sn s).state.plan = ids
      ∧ (∀ r, lookupKey s.state.tasks id = some r →
          lookupKey (set_plan ids sn s).state.tasks id = some r)
      ∧ (lookupKey s.state.tasks id = none →
          lookupKey (set_plan ids sn s).state.tasks id =
            if id ∈ ids then some pendingRecord else none)
      ∧ (∀ r, lookupKey s.state.tasks id = some r →
          lookupKey (set_plan ids2 sn2 (set_plan ids sn s)).state.tasks id =
            some r) := by
  have htasks : ∀ (l : List String) (n : String) (t : SessionState),
      (set_plan l n t).state.tasks = seedPending t.state.tasks l :=
    fun l n t => by simp [set_plan, saveState_tasks]
  refine ⟨by simp [set_plan, saveState_plan], ?_, ?_, ?_⟩
  · intro r hr
    rw [htasks]
    exact seedPending_lookup_some ids _ id r hr
  · intro hn
    rw [htasks]
    exact seedPending_lookup_none ids _ id hn
  · intro r hr
    rw [htasks, htasks]
    exact seedPending_lookup_some ids2 _ id r
      (seedPending_lookup_some ids _ id r hr)

/-- Witness for C5: re-planning over an in-progress `homebrew` task keeps
its record, and a fresh id is seeded as pending. -/
theorem claim_C5_witness :
    lookupKey
        (set_plan ["homebrew", "nvm"] "T6"
          (set_plan ["homebrew"] "T5"
            (start_task "homebrew" "T2" "T3" sampleWithTask))).state.tasks
        "homebrew" =
      some { status := "in_progress", started := some "T2" } := by
  refine (claim_C5 (start_task "homebrew" "T2" "T3" sampleWithTask)
    ["homebrew"] ["homebrew", "nvm"] "T5" "T6" "homebrew").2.2.2
    { status := "in_progress", started := some "T2" } (by decide)

/-- C7: `set_phase(p)` is a no-op (nothing appended, nothing persisted)
when `p` is the current phase; otherwise it appends exactly one history
entry for the outgoing phase and sets the current phase to `p`, so calling
it twice with the same `p` appends exactly one entry. -/
theorem claim_C7 (s : SessionState) (p now sn now2 sn2 : String) :
    (s.state.phase.current = p → set_phase p now sn s = s)
      ∧ (s.state.phase.current ≠ p →
          (set_phase p now sn s).state.phase.current = p
          ∧ (set_phase p now sn s).state.phase.history =
              s.state.phase.history ++ [⟨s.state.phase.current, now⟩]
          ∧ (set_phase p now2 sn2 (set_phase p now sn s)).state.phase.history =
              s.state.phase.history ++ [⟨s.state.phase.current, now⟩]) := by
  constructor
  · intro h
    simp [set_phase, h]
  · intro h
    have hcur : (set_phase p now sn s).state.phase.current = p := by
      rw [show set_phase p now sn s =
          saveState sn
            { s with state := { s.state with phase :=
                { current := p,
                  history := s.state.phase.history
                    ++ [⟨s.state.phase.current, now⟩] } } }
        from by simp [set_phase, h]]
      simp [saveState_phase]
    have hhist : (set_phase p now sn s).state.phase.history =
        s.state.phase.history ++ [⟨s.state.phase.current, now⟩] := by
      rw [show set_phase p now sn s =
          saveState sn
            { s with state := { s.state with phase :=
                { current := p,
                  history := s.state.phase.history
                    ++ [⟨s.state.phase.current, now⟩] } } }
        from by simp [set_phase, h]]
      simp [saveState_phase]
    refine ⟨hcur, hhist, ?_⟩
    generalize hX : set_phase p now sn s = X at hcur hhist
    rw [show set_phase p now2 sn2 X = X from by simp [set_phase, hcur]]
    exact hhist

/-- Witness for C7: from phase `init`, two `set_phase("requirements")`
calls append exactly the single entry for `init`. -/
theorem claim_C7_witness :
    set_phase "init" "T1" "T2" sampleState = sampleState
      ∧ (set_phase "requirements" "T3" "T4"
            (set_phase "requirements" "T1" "T2" sampleState)).state.phase.history =
          [⟨"init", "T1"⟩] := by
  constructor
  · exact (claim_C7 sampleState "init" "T1" "T2" "T3" "T4").1 (by decide)
  · exact ((claim_C7 sampleState "requirements" "T1" "T2" "T3" "T4").2
      (by decide)).2.2

/-- C8: `fail_task(id, e)` sets status `failed`, stores the error truncated
to its first 500 characters (so a 1000-character error is stored as exactly
`min 500 |e| = 500` characters), stamps `failed_at`, and sets
`resume_point = {task_id: id, action: retry_or_skip, error: e[:200]}`. -/
theorem claim_C8 (s : SessionState) (id e now sn : String) (r : TaskRecord)
    (hr : lookupKey s.state.tasks id = some r) :
    ∃ s', fail_task id e now sn s = .ok s'
      ∧ lookupKey s'.state.tasks id =
          some { r with status := "failed", error := some (e.take 500),
                        failed_at := some now }
      ∧ s'.state.resume_point =
          some { task_id := id, action := "retry_or_skip",
                 error := some (e.take 200) }
      ∧ (e.take 500).length = min 500 e.length := by
  have hfail : fail_task id e now sn s =
      .ok (saveState sn
        { s with state :=
            { s.state with
                tasks := upsertKey s.state.tasks id
                  { r with status := "failed", error := some (e.take 500),
                           failed_at := some now },
                resume_point := some { task_id := id, action := "retry_or_skip",
                                       error := some (e.take 200) } } }) := by
    simp [fail_task, hr]
  refine ⟨_, hfail, ?_, ?_, ?_⟩
  · rw [saveState_tasks]
    exact lookupKey_upsertKey_self ..
  · rw [saveState_resume_point]
  · rw [String.take_eq]
    simp [List.length_take, String.length_data]

/-- Witness for C8: a 1000-character error on the pending `homebrew` task
is stored truncated to exactly 500 characters. -/
theorem claim_C8_witness :
    (∃ s', fail_task "homebrew" longError "T2" "T3" sampleWithTask = .ok s'
      ∧ lookupKey s'.state.tasks "homebrew" =
          some { pendingRecord with
                   status := "failed", error := some (longError.take 500),
                   failed_at := some "T2" }
      ∧ s'.state.resume_point =
          some { task_id := "homebrew", action := "retry_or_skip",
                 error := some (longError.take 200) }
      ∧ (longError.take 500).length = min 500 longError.length)
      ∧ min 500 longError.length = 500 := by
  refine ⟨claim_C8 sampleWithTask "homebrew" longError "T2" "T3" pendingRecord
    (by decide), ?_⟩
  have h : longError.length = 1000 := by
    unfold longError
    rw [String.length_mk, List.length_replicate]
  rw [h]
  decide

/-- C9: `complete_task` and `fail_task` on a task id with no record fail
with the `UnknownTask` error kind (the Python `KeyError` fires on the read
`state["tasks"][task_id]`, the first statement of either method, so no
mutation and no save has happened at that point: document and persisted
file are left unchanged). -/
theorem claim_C9 (s : SessionState) (id e now sn : String)
    (h : lookupKey s.state.tasks id = none) :
    complete_task id now sn s = .error .UnknownTask
      ∧ fail_task id e now sn s = .error .UnknownTask := by
  constructor <;> simp [complete_task, fail_task, h]

/-- Witness for C9 at a fresh session with an empty task table. -/
theorem claim_C9_witness :
    complete_task "ghost" "T2" "T3" sampleState = .error .UnknownTask
      ∧ fail_task "ghost" "boom" "T2" "T3" sampleState =
          .error .UnknownTask :=
  claim_C9 sampleState "ghost" "boom" "T2" "T3" (by decide)

/-- C6: every mutating operation — `set_phase` on a phase change,
`record_choice`, `record_user_data`, `set_plan`, `start_task`,
`complete_task`, `fail_task`, `skip_task`, `log_command_start`,
`log_command_end` on an existing index, `complete_session`,
`fail_session` — persists the full document before returning and refreshes
`meta.updated` with the save timestamp. -/
theorem claim_C6 (s : SessionState) (f : String) (hf : s.session_file = some f)
    (p q a v k val id e cmd lang out err reason now sn : String)
    (ids : List String) (idx : Nat) (success : Bool) :
    (s.state.phase.current ≠ p → persisted (set_phase p now sn s) sn)
      ∧ persisted (record_choice q a v now sn s) sn
      ∧ persisted (record_user_data k val sn s) sn
      ∧ persisted (set_plan ids sn s) sn
      ∧ persisted (start_task id now sn s) sn
      ∧ (∀ s', complete_task id now sn s = .ok s' → persisted s' sn)
      ∧ (∀ s', fail_task id e now sn s = .ok s' → persisted s' sn)
      ∧ persisted (skip_task id now sn s) sn
      ∧ persisted (log_command_start cmd lang now sn s).1 sn
      ∧ (idx < s.state.execution.commands.length →
          persisted (log_command_end idx success out err now sn s) sn)
      ∧ persisted (complete_session now sn s) sn
      ∧ persisted (fail_session reason now sn s) sn := by
  have key : ∀ t : SessionState, t.session_file = some f →
      persisted (saveState sn t) sn := fun t ht => saveState_persists sn t f ht
  refine ⟨?_, ?_, ?_, ?_, ?_, ?_, ?_, ?_, ?_, ?_, ?_, ?_⟩
  · intro h
    rw [show set_phase p now sn s =
        saveState sn
          { s with state := { s.state with phase :=
              { current := p,
                history := s.state.phase.history
                  ++ [⟨s.state.phase.current, now⟩] } } }
      from by simp [set_phase, h]]
    exact key _ hf
  · exact key _ hf
  · exact key _ hf
  · exact key _ hf
  · exact key _ hf
  · intro s' hs'
    cases hr : lookupKey s.state.tasks id with
    | none => simp [complete_task, hr] at hs'
    | some r =>
        simp only [complete_task, hr] at hs'
        injection hs' with h2
        subst h2
        exact key _ hf
  · intro s' hs'
    cases hr : lookupKey s.state.tasks id with
    | none => simp [fail_task, hr] at hs'
    | some r =>
        simp only [fail_task, hr] at hs'
        injection hs' with h2
        subst h2
        exact key _ hf
  · exact key _ hf
  · exact key _ hf
  · intro hidx
    rw [show log_command_end idx success out err now sn s =
        saveState sn
          { s with state := { s.state with execution :=
              { s.state.execution with
                  commands := s.state.execution.commands.modify
                    (fun cmd =>
                      { cmd with
                          ended := some now,
                          status := if success then "success" else "failed",
                          output := if out = "" then cmd.output
                                    else some (out.take 500),
                          error := if err = "" then cmd.error
                                   else some (err.take 500) }) idx } } }
      from by simp [log_command_end, hidx]]
    exact key _ hf
  · exact key _ hf
  · exact key _ hf

/-- Witness for C6: recording a choice and completing the session both
persist the document with a refreshed `updated` timestamp. -/
theorem claim_C6_witness :
    persisted (record_choice "runtime" "A" "nvm" "T1" "T2" sampleState) "T2"
      ∧ persisted (complete_session "T1" "T2" sampleState) "T2" := by
  have h := claim_C6 sampleState "active/prov-20251012-120000-ab12.json" rfl
    "requirements" "runtime" "A" "nvm" "name" "Ada" "homebrew" "boom" "brew"
    "bash" "out" "err" "r" "T1" "T2" ["homebrew"] 0 true
  exact ⟨h.2.1, h.2.2.2.2.2.2.2.2.2.2.1⟩

/-- C1: `_save` is atomic with respect to process termination: it writes
the serialized document to the sibling `.tmp` path and then performs a
single rename onto the canonical `.json` path, so at every crash point —
before the write, mid-write with any truncated temporary content, between
write and rename, or after the rename — a reader of the canonical session
path sees either the prior document or the new document in full, never a
missing or truncated file. -/
theorem claim_C1 (fs : FS) (stem content old : String) (cp : CrashPoint)
    (h : fs (canonicalPath stem) = some old) :
    saveCrashFS fs stem content cp (canonicalPath stem) = some old
      ∨ saveCrashFS fs stem content cp (canonicalPath stem) = some content := by
  have hne : canonicalPath stem ≠ tmpPath stem := by
    intro he
    have hlen := congrArg String.length he
    simp only [canonicalPath, tmpPath, String.length_append] at hlen
    have h5 : (".json" : String).length = 5 := rfl
    have h4 : (".tmp" : String).length = 4 := rfl
    omega
  cases cp with
  | beforeWrite => exact .inl h
  | duringWrite tr =>
      left
      rw [show saveCrashFS fs stem content (.duringWrite tr) =
          fsWrite fs (tmpPath stem) tr from rfl]
      rw [fsWrite, if_neg hne]
      exact h
  | afterWrite =>
      left
      rw [show saveCrashFS fs stem content .afterWrite =
          fsWrite fs (tmpPath stem) content from rfl]
      rw [fsWrite, if_neg hne]
      exact h
  | afterRename =>
      right
      rw [show saveCrashFS fs stem content .afterRename =
          fsRename (fsWrite fs (tmpPath stem) content) (tmpPath stem)
            (canonicalPath stem) from rfl]
      rw [fsRename, if_pos rfl, fsWrite, if_pos rfl]

/-- Witness for C1: a crash between the temporary write and the rename
leaves the prior document visible at the canonical path. -/
theorem claim_C1_witness :
    saveCrashFS crashDemoFS "active/prov-1" "new-document" .afterWrite
        (canonicalPath "active/prov-1") = some "old-document"
      ∨ saveCrashFS crashDemoFS "active/prov-1" "new-document" .afterWrite
          (canonicalPath "active/prov-1") = some "new-document" :=
  claim_C1 crashDemoFS "active/prov-1" "new-document" "old-document"
    .afterWrite (by simp [crashDemoFS])

/-- Counterexample to C3: when the check command times out, `check_tool`
reports `installed=false` but leaves the `error` field unpopulated, contrary
to the claim that a timeout yields a populated error. -/
theorem claim_C3_counterexample :
    (check_tool timeoutEnv noPath "homebrew" brewTask false).installed = false
      ∧ (check_tool timeoutEnv noPath "homebrew" brewTask false).error = none := by
  decide

/-- C3 (amended): `check_tool` returns `installed=false` whenever the check
command is missing (or empty, Python-falsy), times out, or raises; the
`error` field is populated — with `No detection command` — only in the
missing-command case, and remains `none` for timeouts and exceptions
(`run_command` swallows them into a `(-1, message)` result whose message
`check_tool` discards). -/
theorem claim_C3 (env : Env) (pE : String → Bool) (tid : String)
    (task : TaskDesc) (quick : Bool) :
    (¬ strTruthy task.detection.check_command →
        (check_tool env pE tid task quick).installed = false
        ∧ (check_tool env pE tid task quick).error = some "No detection command")
      ∧ (∀ c, task.detection.check_command = some c → c ≠ "" →
          env c 10 = .timedOut →
          (check_tool env pE tid task quick).installed = false
          ∧ (check_tool env pE tid task quick).error = none)
      ∧ (∀ c msg, task.detection.check_command = some c → c ≠ "" →
          env c 10 = .raised msg →
          (check_tool env pE tid task quick).installed = false
          ∧ (check_tool env pE tid task quick).error = none) := by
  refine ⟨?_, ?_, ?_⟩
  · intro h
    constructor <;> simp [check_tool, h]
  · intro c hc hcne henv
    constructor <;> simp [check_tool, hc, strTruthy, hcne, run_command, henv]
  · intro c msg hc hcne henv
    constructor <;> simp [check_tool, hc, strTruthy, hcne, run_command, henv]

/-- Witness for C3 (amended): a missing check command yields a populated
error, while an exception-raising check yields `installed=false` with no
error. -/
theorem claim_C3_witness :
    ((check_tool timeoutEnv noPath "nvm" noCmdTask true).installed = false
      ∧ (check_tool timeoutEnv noPath "nvm" noCmdTask true).error =
          some "No detection command")
      ∧ ((check_tool raisedEnv noPath "homebrew" brewTask false).installed = false
          ∧ (check_tool raisedEnv noPath "homebrew" brewTask false).error = none) :=
  ⟨(claim_C3 timeoutEnv noPath "nvm" noCmdTask true).1 (by decide),
   (claim_C3 raisedEnv noPath "homebrew" brewTask false).2.2
     "command -v brew" "boom" rfl (by decide) rfl⟩

/-- A session document produced by the state machine never carries the
top-level key `completed_tasks` that `compare_with_session` reads. -/
theorem jsonGet_session_completed_tasks (d : SessionDoc) :
    jsonGet (sessionToJson d) "completed_tasks" = none := by
  simp [sessionToJson, jsonGet, lookupKey]

theorem compare_with_session_sessionDoc (tools : List ToolStatus)
    (d : SessionDoc) :
    compare_with_session tools (sessionToJson d) =
      { added_outside_session :=
          ((tools.filter (fun t => t.installed)).map (fun t => t.task_id)).toFinset,
        removed_since_session := ∅,
        still_installed := ∅ } := by
  simp [compare_with_session, jsonGet_session_completed_tasks]

/-- C2 (code-bug evidence): `compare_with_session` reads the top-level key
`completed_tasks`, which no session document written by the Session State
Machine contains (they record completion in `tasks` with status
`completed`, the field `get_completed_tasks` reads).  Against a session
whose completed tasks are `{b,c,d}` and a report with installed `{a,b,c}`,
the code therefore returns `added_outside_session={a,b,c}`,
`removed_since_session={}`, `still_installed={}` instead of the claimed
`{a}`, `{d}`, `{b,c}`. -/
theorem claim_C2 :
    get_completed_tasks sessionBCD = ["b", "c", "d"]
      ∧ compare_with_session reportABC (sessionToJson sessionBCD) =
          { added_outside_session := {"a", "b", "c"},
            removed_since_session := ∅, still_installed := ∅ }
      ∧ compare_with_session reportABC (sessionToJson sessionBCD) ≠
          { added_outside_session := {"a"},
            removed_since_session := {"d"},
            still_installed := {"b", "c"} } := by
  refine ⟨by decide, ?_, ?_⟩
  · rw [compare_with_session_sessionDoc]
    decide
  · rw [compare_with_session_sessionDoc]
    decide

/-! The ordering facts about the Python tuple comparison that the sorting
argument needs: asymmetry, transitivity and trichotomy of `keyLtb`. -/

theorem strLtb_irrefl : ∀ l : List Char, strLtb l l = false
  | [] => rfl
  | a :: as => by simp [strLtb, strLtb_irrefl as]

theorem strLtb_asymm : ∀ l1 l2 : List Char,
    strLtb l1 l2 = true → strLtb l2 l1 = true → False
  | [], [], h1, _ => by simp [strLtb] at h1
  | [], _ :: _, _, h2 => by simp [strLtb] at h2
  | _ :: _, [], h1, _ => by simp [strLtb] at h1
  | a :: as, b :: bs, h1, h2 => by
      by_cases hab : a = b
      · subst hab
        simp only [strLtb, if_pos rfl] at h1 h2
        exact strLtb_asymm as bs h1 h2
      · simp only [strLtb, if_neg hab, if_neg (Ne.symm hab)] at h1 h2
        exact absurd (of_decide_eq_true h2) (lt_asymm (of_decide_eq_true h1))

theorem strLtb_trans : ∀ l1 l2 l3 : List Char,
    strLtb l1 l2 = true → strLtb l2 l3 = true → strLtb l1 l3 = true
  | [], l2, l3, h1, h2 => by
      cases l2 with
      | nil => simp [strLtb] at h1
      | cons b bs =>
          cases l3 with
          | nil => simp [strLtb] at h2
          | cons c cs => simp [strLtb]
  | a :: as, l2, l3, h1, h2 => by
      cases l2 with
      | nil => simp [strLtb] at h1
      | cons b bs =>
          cases l3 with
          | nil => simp [strLtb] at h2
          | cons c cs =>
              by_cases hab : a = b
              · subst hab
                simp only [strLtb, if_pos rfl] at h1
                by_cases hac : a = c
                · subst hac
                  simp only [strLtb, if_pos rfl] at h2 ⊢
                  exact strLtb_trans as bs cs h1 h2
                · simp only [strLtb, if_neg hac] at h2 ⊢
                  exact h2
              · have h1' : a < b :=
                  of_decide_eq_true (by simpa [strLtb, hab] using h1)
                by_cases hbc : b = c
                · subst hbc
                  simp [strLtb, hab, h1']
                · have h2' : b < c :=
                    of_decide_eq_true (by simpa [strLtb, hbc] using h2)
                  have hac : a < c := lt_trans h1' h2'
                  simp [strLtb, ne_of_lt hac, hac]

theorem strLtb_total : ∀ l1 l2 : List Char,
    strLtb l1 l2 = true ∨ l1 = l2 ∨ strLtb l2 l1 = true
  | [], [] => .inr (.inl rfl)
  | [], _ :: _ => .inl (by simp [strLtb])
  | _ :: _, [] => .inr (.inr (by simp [strLtb]))
  | a :: as, b :: bs => by
      by_cases hab : a = b
      · subst hab
        rcases strLtb_total as bs with h | h | h
        · exact .inl (by simpa [strLtb] using h)
        · exact .inr (.inl (by rw [h]))
        · exact .inr (.inr (by simpa [strLtb] using h))
      · rcases lt_trichotomy a b with h | h | h
        · exact .inl (by simp [strLtb, hab, h])
        · exact absurd h hab
        · exact .inr (.inr (by simp [strLtb, Ne.symm hab, h]))

theorem str_eq_of_data_eq {a b : String} (h : a.data = b.data) : a = b := by
  cases a
  cases b
  exact congrArg String.mk h

theorem keyLtb_asymm (x y : String × String) :
    keyLtb x y = true → keyLtb y x = true → False := by
  intro h1 h2
  simp only [keyLtb, Bool.or_eq_true, Bool.and_eq_true, beq_iff_eq] at h1 h2
  rcases h1 with h1 | ⟨he1, h1⟩
  · rcases h2 with h2 | ⟨he2, h2⟩
    · exact strLtb_asymm _ _ h1 h2
    · rw [he2] at h1
      simp [strLtb_irrefl] at h1
  · rcases h2 with h2 | ⟨he2, h2⟩
    · rw [he1] at h2
      simp [strLtb_irrefl] at h2
    · exact strLtb_asymm _ _ h1 h2

theorem keyLtb_trans (x y z : String × String) :
    keyLtb x y = true → keyLtb y z = true → keyLtb x z = true := by
  intro h1 h2
  simp only [keyLtb, Bool.or_eq_true, Bool.and_eq_true, beq_iff_eq] at h1 h2 ⊢
  rcases h1 with h1 | ⟨he1, h1⟩ <;> rcases h2 with h2 | ⟨he2, h2⟩
  · exact .inl (strLtb_trans _ _ _ h1 h2)
  · left
    rw [← he2]
    exact h1
  · left
    rw [he1]
    exact h2
  · exact .inr ⟨he1.trans he2, strLtb_trans _ _ _ h1 h2⟩

theorem keyLtb_trichotomy (x y : String × String) :
    keyLtb x y = true ∨ x = y ∨ keyLtb y x = true := by
  rcases strLtb_total x.1.data y.1.data with h | h | h
  · exact .inl (by simp [keyLtb, h])
  · have he : x.1 = y.1 := str_eq_of_data_eq h
    rcases strLtb_total x.2.data y.2.data with h2 | h2 | h2
    · exact .inl (by simp [keyLtb, he, h2])
    · exact .inr (.inl (Prod.ext he (str_eq_of_data_eq h2)))
    · exact .inr (.inr (by simp [keyLtb, he.symm, h2, strLtb_irrefl]))
  · exact .inr (.inr (by simp [keyLtb, h]))

theorem keyLe_trans (x y z : String × String) :
    keyLe x y → keyLe y z → keyLe x z := by
  intro h1 h2
  rcases h1 with h1 | rfl
  · rcases h2 with h2 | rfl
    · exact .inl (keyLtb_trans _ _ _ h1 h2)
    · exact .inl h1
  · exact h2

theorem keyLe_total (x y : String × String) : keyLe x y ∨ keyLe y x := by
  rcases keyLtb_trichotomy x y with h | rfl | h
  · exact .inl (.inl h)
  · exact .inl (.inr rfl)
  · exact .inr (.inl h)

theorem sorted_toolLt_of_sorted_toolLe (l : List ToolStatus)
    (hs : l.Sorted toolLe) (hnd : (l.map toolKey).Nodup) :
    l.Sorted toolLt := by
  have hne : l.Pairwise (fun a b => toolKey a ≠ toolKey b) :=
    List.pairwise_map.mp hnd
  exact (hs.and hne).imp (fun h => h.1.resolve_right h.2)

theorem sortTools_perm_eq (l1 l2 : List ToolStatus) (hp : l1.Perm l2)
    (hnd : (l2.map toolKey).Nodup) : sortTools l1 = sortTools l2 := by
  haveI : IsAntisymm ToolStatus toolLt :=
    ⟨fun _ _ hab hba => (keyLtb_asymm _ _ hab hba).elim⟩
  haveI : IsTotal ToolStatus toolLe := ⟨fun a b => keyLe_total _ _⟩
  haveI : IsTrans ToolStatus toolLe := ⟨fun a b c => keyLe_trans _ _ _⟩
  have hp1 : List.Perm (sortTools l1) l1 := List.perm_insertionSort toolLe l1
  have hp2 : List.Perm (sortTools l2) l2 := List.perm_insertionSort toolLe l2
  have hp12 : List.Perm (sortTools l1) (sortTools l2) :=
    hp1.trans (hp.trans hp2.symm)
  have hnd1 : ((sortTools l1).map toolKey).Nodup :=
    (((hp1.trans hp).map toolKey).nodup_iff).mpr hnd
  have hnd2 : ((sortTools l2).map toolKey).Nodup :=
    ((hp2.map toolKey).nodup_iff).mpr hnd
  exact List.eq_of_perm_of_sorted hp12
    (sorted_toolLt_of_sorted_toolLe _ (List.sorted_insertionSort toolLe l1) hnd1)
    (sorted_toolLt_of_sorted_toolLe _ (List.sorted_insertionSort toolLe l2) hnd2)

/-- Counterexample to C10: with two tasks sharing the `(category, name)`
sort key, a parallel run whose probes complete in reverse order produces a
different sorted tools list than the sequential run (the stable sort keeps
the tied entries in completion order), so the reports are not identical
even though the probes are deterministic. -/
theorem claim_C10_counterexample :
    dupArrival.Perm dupTasks
      ∧ run_audit dupEnv noPath none "TS" dupTasks false true dupArrival
          ≠ run_audit dupEnv noPath none "TS" dupTasks false false dupArrival := by
  constructor
  · decide
  · decide

/-- C10 (amended): for a fixed task set with deterministic probe results in
which no two probe results share the same `(category, name)` sort key,
`run_audit` in parallel mode — whatever order the worker pool completes the
probes in — and in sequential mode produce identical reports: the same
sorted tools list and the same summary statistics.  (Without the
distinct-key proviso the sorted lists may differ in the relative order of
tied entries, as the counterexample shows; the summary is unaffected.) -/
theorem claim_C10 (env : Env) (pE : String → Bool) (shellEnv : Option String)
    (ts : String) (tasks arrival : List (String × TaskDesc)) (quick : Bool)
    (hperm : arrival.Perm tasks)
    (hkeys : ((tasks.map (fun p => check_tool env pE p.1 p.2 quick)).map
        toolKey).Nodup) :
    run_audit env pE shellEnv ts tasks quick true arrival =
      run_audit env pE shellEnv ts tasks quick false arrival := by
  cases quick with
  | true => simp [run_audit]
  | false =>
      have hmap : (arrival.map (fun p => check_tool env pE p.1 p.2 false)).Perm
          (tasks.map (fun p => check_tool env pE p.1 p.2 false)) := hperm.map _
      have hst := sortTools_perm_eq _ _ hmap hkeys
      simp [run_audit, hst]

/-- Witness for C10 (amended): with distinct sort keys, reversed completion
order still yields a report identical to the sequential one. -/
theorem claim_C10_witness :
    run_audit dupEnv noPath none "TS" distinctTasks false true distinctArrival =
      run_audit dupEnv noPath none "TS" distinctTasks false false distinctArrival :=
  claim_C10 dupEnv noPath none "TS" distinctTasks distinctArrival false
    (by decide) (by decide)

end AgenticProvision
